import Mathlib

/-!
Shallow embedding of the audio pipeline of a browser text-to-speech
application, translated statement by statement from its TypeScript sources:

* `decodeAudioData`: raw little-endian signed 16-bit PCM bytes to a
  normalized floating-point audio buffer;
* `audioBufferToWav` and `audioBufferToMp3`: an audio buffer to a RIFF/WAVE
  byte stream (the mp3-labelled variant writes the same bytes and only
  attaches a different media-type label);
* the playback transport of the main application component (play, pause,
  seek, speed, mute/volume, the onended callback and the progress loop) as a
  state machine over rational-valued clocks.

Samples and clock times are modelled as rationals.  Every float value the
modelled code paths manipulate (int16 samples divided by 32768, their
clamped products with 32767 or 32768, and sums/products of the symbolic
clock values the theorems quantify over) is reproduced exactly by rational
arithmetic, so no floating-point rounding is abstracted away on the values
the theorems speak about.
-/

namespace Tts

/-- Signed 16-bit little-endian value of a byte pair, as the JavaScript
Int16Array view reads it: lo + 256 * hi reinterpreted into [-32768, 32768). -/
def toInt16 (lo hi : Nat) : Int :=
  if lo + 256 * hi < 32768 then ((lo + 256 * hi : Nat) : Int)
  else ((lo + 256 * hi : Nat) : Int) - 65536

/-- The Int16Array view of a byte sequence: consecutive little-endian pairs.
The view is only constructed after the even-byte-length check, so the
catch-all case for a trailing odd byte is never reached on modelled inputs. -/
def bytesToInt16List : List Nat → List Int
  | lo :: hi :: rest => toInt16 lo hi :: bytesToInt16List rest
  | _ => []

/-- The fields of a web AudioBuffer that the program reads: metadata plus
normalized per-channel sample data. -/
structure AudioBufferM where
  numberOfChannels : Nat
  sampleRate : Nat
  length : Nat
  channelData : List (List ℚ)
deriving DecidableEq

/-- The buffer decodeAudioData constructs on an even-length input:
frameCount is dataInt16.length / numChannels (createBuffer truncates the
fractional frame count a non-multiple sample count produces, and the copy
loop's out-of-bounds writes are dropped), and the sample of channel c at
frame i is dataInt16[i * numChannels + c] / 32768. -/
def decodedBuffer (data : List Nat) (sampleRate numChannels : Nat) : AudioBufferM :=
  { numberOfChannels := numChannels
    sampleRate := sampleRate
    length := (bytesToInt16List data).length / numChannels
    channelData := (List.range numChannels).map (fun channel =>
      (List.range ((bytesToInt16List data).length / numChannels)).map (fun i =>
        (((bytesToInt16List data).getD (i * numChannels + channel) 0 : Int) : ℚ) / 32768)) }

/-- decodeAudioData: constructing the Int16Array view on the byte buffer
throws a RangeError on an odd byte length, and ctx.createBuffer throws a
NotSupportedError when the truncated frame count
dataInt16.length / numChannels is zero (fewer than one full frame); both
failure paths are modelled as none.  Otherwise the buffer described by
decodedBuffer is produced. -/
def decodeAudioData (data : List Nat) (sampleRate numChannels : Nat) : Option AudioBufferM :=
  if data.length % 2 = 0 then
    if (bytesToInt16List data).length / numChannels = 0 then none
    else some (decodedBuffer data sampleRate numChannels)
  else none

/-- Math.max(-1, Math.min(1, s)), the clamp both encoders apply. -/
def clampSample (s : ℚ) : ℚ := max (-1) (min 1 s)

/-- Truncation toward zero, the conversion DataView.setInt16 applies to a
non-integral number (ToIntegerOrInfinity). -/
def ratTrunc (q : ℚ) : Int :=
  if 0 ≤ q.num then ((q.num.toNat / q.den : Nat) : Int)
  else -(((-q.num).toNat / q.den : Nat) : Int)

/-- One converted sample of floatTo16BitPCM and of the interleaving loop:
clamp to [-1, 1], scale a negative value by 0x8000 and a non-negative one by
0x7FFF, truncate toward zero. -/
def floatTo16BitPCMSample (s : ℚ) : Int :=
  if clampSample s < 0 then ratTrunc (clampSample s * 32768)
  else ratTrunc (clampSample s * 32767)

/-- The two bytes DataView.setInt16 (little-endian) stores: the value modulo
2 ^ 16 (Euclidean remainder, hence non-negative), low byte first. -/
def int16ToBytes (v : Int) : List Nat :=
  [(v % 65536).toNat % 256, (v % 65536).toNat / 256]

/-- The four bytes DataView.setUint32 (little-endian) stores. -/
def uint32leBytes (n : Nat) : List Nat :=
  [n % 256, n / 256 % 256, n / 65536 % 256, n / 16777216 % 256]

/-- The two bytes DataView.setUint16 (little-endian) stores. -/
def uint16leBytes (n : Nat) : List Nat :=
  [n % 256, n / 256 % 256]

/-- writeString applied to the chunk id RIFF: the ASCII codes of R, I, F, F. -/
def riffChunkId : List Nat := [82, 73, 70, 70]

/-- writeString applied to the format id WAVE. -/
def waveFormatId : List Nat := [87, 65, 86, 69]

/-- writeString applied to the fmt sub-chunk id (fmt followed by a space). -/
def fmtChunkId : List Nat := [102, 109, 116, 32]

/-- writeString applied to the data sub-chunk id. -/
def dataChunkId : List Nat := [100, 97, 116, 97]

/-- buffer.getChannelData(i). -/
def getChannelData (b : AudioBufferM) (i : Nat) : List ℚ := b.channelData.getD i []

/-- floatTo16BitPCM: each converted input sample written as two
little-endian bytes at consecutive even offsets. -/
def floatTo16BitPCM (input : List ℚ) : List Nat :=
  input.flatMap (fun s => int16ToBytes (floatTo16BitPCMSample s))

/-- The interleaving loop (for each frame, for each channel, convert and
write) of the multi-channel branch of audioBufferToWav, and of
audioBufferToMp3 in every case. -/
def interleavedData (b : AudioBufferM) : List Nat :=
  (List.range b.length).flatMap (fun i =>
    (List.range b.numberOfChannels).flatMap (fun j =>
      int16ToBytes (floatTo16BitPCMSample ((getChannelData b j).getD i 0))))

/-- The 44 header bytes both encoders write: the DataView writes at offsets
0..43 are in order and never overlap, so the header is their concatenation.
The data length is buffer.length * numOfChan * (bitDepth / 8) with bitDepth
16. -/
def wavHeader (b : AudioBufferM) : List Nat :=
  riffChunkId ++ uint32leBytes (36 + b.length * b.numberOfChannels * 2) ++ waveFormatId ++
  fmtChunkId ++ uint32leBytes 16 ++ uint16leBytes 1 ++ uint16leBytes b.numberOfChannels ++
  uint32leBytes b.sampleRate ++ uint32leBytes (b.sampleRate * b.numberOfChannels * 2) ++
  uint16leBytes (b.numberOfChannels * 2) ++ uint16leBytes 16 ++
  dataChunkId ++ uint32leBytes (b.length * b.numberOfChannels * 2)

/-- audioBufferToWav: header then payload; the single-channel branch runs
floatTo16BitPCM on channel 0, the general branch the interleaving loop. -/
def audioBufferToWav (b : AudioBufferM) : List Nat :=
  wavHeader b ++
    (if b.numberOfChannels = 1 then floatTo16BitPCM (getChannelData b 0) else interleavedData b)

/-- audioBufferToMp3: identical header writes and the interleaving loop for
the payload in every case; only the media-type label attached to the Blob
differs from the wav encoder, which does not affect the bytes. -/
def audioBufferToMp3 (b : AudioBufferM) : List Nat :=
  wavHeader b ++ interleavedData b

/-- A buffer whose channel list matches its declared channel count and whose
channels all carry the declared frame count. -/
def wellFormed (b : AudioBufferM) : Prop :=
  b.channelData.length = b.numberOfChannels ∧ ∀ ch ∈ b.channelData, ch.length = b.length

instance (b : AudioBufferM) : Decidable (wellFormed b) := by
  unfold wellFormed
  exact inferInstance

/-- The playback-relevant state of the application component: the React
state variables the transport reads and writes, the refs
(playbackStartTimeRef, startOffsetRef, whether audioSourceRef holds a
source), and the current buffer's duration.  sourceStartOffset records the
offset argument of the most recent source.start call.  sourceRate records
the playbackRate value of the render in which play() ran: the onended
closure play() attaches (and the progress callback chain play() schedules)
capture that value, and a later handleSpeedChange re-render does not replace
those already-attached closures; playbackRate is the current React state
value that fresh handler invocations such as pause read. -/
structure PlayerState where
  isPlaying : Bool
  hasMainSource : Bool
  currentTime : ℚ
  duration : ℚ
  startOffset : ℚ
  playbackStartTime : ℚ
  sourceStartOffset : ℚ
  sourceRate : ℚ
  playbackRate : ℚ
  volume : ℚ
  lastVolume : ℚ
deriving DecidableEq

/-- The handler and callback invocations of the transport; each carries the
audio-clock reading (ctx.currentTime) at the moment it runs where the
handler consults the clock. -/
inductive Event where
  | play (now : ℚ)
  | pause (now : ℚ)
  | speedChange (rate now : ℚ)
  | seek (t now : ℚ)
  | toggleMute
  | volumeChange (v : ℚ)
  | ended (now : ℚ)
  | tick (now : ℚ)
deriving DecidableEq

/-- play(): tears down the previous main source, starts a fresh source at
startOffsetRef.current clamped to 0 when it is at or past the buffer
duration (the ternary at the source.start call), records ctx.currentTime in
playbackStartTimeRef, and sets isPlaying.  startOffsetRef itself is not
changed.  The onended closure attached here and the scheduled progress
callback capture the playbackRate of this render (sourceRate). -/
def playStep (s : PlayerState) (now : ℚ) : PlayerState :=
  { s with hasMainSource := true,
           sourceStartOffset := if s.duration ≤ s.startOffset then 0 else s.startOffset,
           sourceRate := s.playbackRate,
           playbackStartTime := now,
           isPlaying := true }

/-- One transition of the transport: pause is a fresh handler invocation, so
it folds (now - playbackStartTime) * playbackRate into startOffsetRef using
the current rate and stops the source; handleSpeedChange only replaces the
rate (it updates the live source's rate parameter but not the closures a
previous play() attached); handleSeek overwrites currentTime and
startOffsetRef with the target and restarts when playing; handleToggleMute
and handleVolumeChange follow the two volume handlers; the onended closure
recomputes the final offset with the rate it captured when play() attached
it (sourceRate) and resets the offset to 0 (snapping the displayed time to
the duration) exactly when it reached duration - 0.01; the progress
callback, also scheduled by play(), republishes the current position using
the same captured rate. -/
def stepEvent (s : PlayerState) (e : Event) : PlayerState :=
  match e with
  | Event.play now => playStep s now
  | Event.pause now =>
    if s.hasMainSource then
      { s with startOffset := s.startOffset + (now - s.playbackStartTime) * s.playbackRate,
               isPlaying := false,
               hasMainSource := false }
    else s
  | Event.speedChange rate _now => { s with playbackRate := rate }
  | Event.seek t now =>
    let s1 := { s with currentTime := t, startOffset := t }
    if s1.isPlaying then playStep s1 now else s1
  | Event.toggleMute =>
    if 0 < s.volume then { s with lastVolume := s.volume, volume := 0 }
    else { s with volume := if 0 < s.lastVolume then s.lastVolume else 1 }
  | Event.volumeChange v =>
    { s with volume := v, lastVolume := if 0 < v then v else s.lastVolume }
  | Event.ended now =>
    if s.hasMainSource then
      { s with startOffset :=
                 if s.duration - 1 / 100 ≤
                     s.startOffset + (now - s.playbackStartTime) * s.sourceRate
                 then 0
                 else s.startOffset + (now - s.playbackStartTime) * s.sourceRate,
               currentTime :=
                 if s.duration - 1 / 100 ≤
                     s.startOffset + (now - s.playbackStartTime) * s.sourceRate
                 then s.duration else s.currentTime,
               isPlaying := false }
    else s
  | Event.tick now =>
    if s.isPlaying then
      { s with currentTime := s.startOffset + (now - s.playbackStartTime) * s.sourceRate }
    else s

/-- The state of a freshly mounted component right after its first
successful generation of a buffer of duration d: the useState initial
values for the playback fields, startOffsetRef and currentTime reset to 0
by handleGenerateAudio, no live source yet. -/
def initState (d : ℚ) : PlayerState :=
  { isPlaying := false, hasMainSource := false, currentTime := 0, duration := d,
    startOffset := 0, playbackStartTime := 0, sourceStartOffset := 0, sourceRate := 1,
    playbackRate := 1, volume := 1, lastVolume := 1 }

/-- Run a sequence of handler invocations from the freshly generated state. -/
def runEvents (d : ℚ) (es : List Event) : PlayerState :=
  es.foldl stepEvent (initState d)

lemma clampSample_of_mem (s : ℚ) (h1 : -1 ≤ s) (h2 : s ≤ 1) : clampSample s = s := by
  unfold clampSample
  rw [min_eq_right h2, max_eq_right h1]

lemma ratTrunc_intCast (v : Int) : ratTrunc ((v : ℚ)) = v := by
  unfold ratTrunc
  rcases le_or_lt 0 v with h | h
  · rw [if_pos (by simpa using h)]
    simp [Int.toNat_of_nonneg h]
  · rw [if_neg (by simpa using h.not_le)]
    simp only [Rat.num_intCast, Rat.den_intCast, Nat.div_one]
    omega

lemma ratTrunc_of_nonneg (q : ℚ) (h : 0 ≤ q) : ratTrunc q = ⌊q⌋ := by
  have hn : 0 ≤ q.num := Rat.num_nonneg.mpr h
  unfold ratTrunc
  rw [if_pos hn, Rat.floor_def, Int.natCast_div, Int.toNat_of_nonneg hn]

lemma toInt16_bounds (lo hi : Nat) (hlo : lo < 256) (hhi : hi < 256) :
    -32768 ≤ toInt16 lo hi ∧ toInt16 lo hi < 32768 := by
  unfold toInt16
  split <;> omega

lemma bytesToInt16List_int16ToBytes_append (v : Int) (rest : List Nat)
    (h1 : -32768 ≤ v) (h2 : v < 32768) :
    bytesToInt16List (int16ToBytes v ++ rest) = v :: bytesToInt16List rest := by
  show bytesToInt16List (_ :: _ :: rest) = _
  rw [bytesToInt16List, List.cons.injEq]
  refine ⟨?_, rfl⟩
  unfold toInt16
  rw [Nat.mod_add_div]
  split <;> omega

lemma floatTo16BitPCMSample_int16 (v : Int) (h1 : -32768 ≤ v) (h2 : v < 32768) :
    floatTo16BitPCMSample ((v : ℚ) / 32768) = if 0 < v then v - 1 else v := by
  have h32 : (0 : ℚ) < 32768 := by norm_num
  have hc : clampSample ((v : ℚ) / 32768) = (v : ℚ) / 32768 := by
    have hq1 : (-32768 : ℚ) ≤ (v : ℚ) := by exact_mod_cast h1
    have hq2 : ((v : ℚ)) < 32768 := by exact_mod_cast h2
    apply clampSample_of_mem
    · rw [le_div_iff₀ h32]
      linarith
    · rw [div_le_one h32]
      linarith
  unfold floatTo16BitPCMSample
  rw [hc]
  rcases lt_trichotomy v 0 with hv | hv | hv
  · rw [if_pos, if_neg (by omega)]
    · rw [div_mul_cancel₀ _ (ne_of_gt h32), ratTrunc_intCast]
    · apply div_neg_of_neg_of_pos _ h32
      exact_mod_cast hv
  · subst hv
    norm_num [ratTrunc_of_nonneg]
  · have hnn : (0 : ℚ) ≤ (v : ℚ) / 32768 * 32767 := by
      apply mul_nonneg _ (by norm_num)
      apply div_nonneg _ (le_of_lt h32)
      exact_mod_cast hv.le
    rw [if_neg (not_lt.mpr (by positivity)), if_pos hv, ratTrunc_of_nonneg _ hnn]
    have hq2 : ((v : ℚ)) < 32768 := by exact_mod_cast h2
    have hq3 : (1 : ℚ) ≤ (v : ℚ) := by exact_mod_cast hv
    rw [Int.floor_eq_iff]
    constructor
    · rw [div_mul_eq_mul_div, le_div_iff₀ h32]
      push_cast
      linarith
    · rw [div_mul_eq_mul_div, div_lt_iff₀ h32]
      push_cast
      linarith

lemma floatTo16BitPCMSample_int16_bounds (v : Int) (h1 : -32768 ≤ v) (h2 : v < 32768) :
    -32768 ≤ floatTo16BitPCMSample ((v : ℚ) / 32768) ∧
      floatTo16BitPCMSample ((v : ℚ) / 32768) < 32768 := by
  rw [floatTo16BitPCMSample_int16 v h1 h2]
  split <;> omega

lemma getD_map_range {α : Type _} (n : Nat) (f : Nat → α) (c : Nat) (hc : c < n) (d : α) :
    ((List.range n).map f).getD c d = f c := by
  rw [List.getD_eq_getElem _ _ (by simpa using hc)]
  simp

lemma flatMap_congr_mem {α β : Type _} (l : List α) (f g : α → List β)
    (h : ∀ a ∈ l, f a = g a) : l.flatMap f = l.flatMap g := by
  induction l with
  | nil => rfl
  | cons x xs ih =>
    rw [List.flatMap_cons, List.flatMap_cons, h x (by simp),
      ih (fun a ha => h a (by simp [ha]))]

lemma range_flatMap_mul {β : Type _} (f nc : Nat) (g : Nat → List β) :
    (List.range f).flatMap (fun i => (List.range nc).flatMap (fun j => g (i * nc + j))) =
      (List.range (f * nc)).flatMap g := by
  induction f with
  | zero => simp
  | succ n ih =>
    rw [List.range_succ, List.flatMap_append, ih, Nat.succ_mul, List.range_add,
      List.flatMap_append]
    simp [List.flatMap_map]

lemma flatMap_eq_range_getD {α β : Type _} (g : α → List β) (d : α) (l : List α) :
    l.flatMap g = (List.range l.length).flatMap (fun i => g (l.getD i d)) := by
  induction l with
  | nil => rfl
  | cons x xs ih =>
    simp only [List.length_cons, List.range_succ_eq_map, List.flatMap_cons, List.flatMap_map,
      List.getD_cons_zero, List.getD_cons_succ]
    rw [ih]

lemma bytesToInt16List_flatMap (l : List Int)
    (h : ∀ v ∈ l, -32768 ≤ v ∧ v < 32768) :
    bytesToInt16List (l.flatMap int16ToBytes) = l := by
  induction l with
  | nil => rfl
  | cons v vs ih =>
    rw [List.flatMap_cons,
      bytesToInt16List_int16ToBytes_append v _ (h v (by simp)).1 (h v (by simp)).2,
      ih (fun a ha => h a (by simp [ha]))]

lemma length_flatMap_int16ToBytes (l : List Int) :
    (l.flatMap int16ToBytes).length = 2 * l.length := by
  induction l with
  | nil => rfl
  | cons v vs ih =>
    rw [List.flatMap_cons, List.length_append, ih]
    simp only [int16ToBytes, List.length_cons, List.length_nil, List.length_cons]
    omega

lemma bytesToInt16List_length : ∀ l : List Nat, (bytesToInt16List l).length = l.length / 2
  | [] => rfl
  | [_] => by simp [bytesToInt16List]
  | _ :: _ :: rest => by
    rw [bytesToInt16List, List.length_cons, bytesToInt16List_length rest]
    simp only [List.length_cons]
    omega

lemma bytesToInt16List_mem_bounds : ∀ l : List Nat, (∀ x ∈ l, x < 256) →
    ∀ v ∈ bytesToInt16List l, -32768 ≤ v ∧ v < 32768
  | [], _, v, hv => by simp [bytesToInt16List] at hv
  | [_], _, v, hv => by simp [bytesToInt16List] at hv
  | lo :: hi :: rest, h, v, hv => by
    rw [bytesToInt16List, List.mem_cons] at hv
    rcases hv with rfl | hv
    · exact toInt16_bounds lo hi (h lo (by simp)) (h hi (by simp))
    · exact bytesToInt16List_mem_bounds rest (fun x hx => h x (by simp [hx])) v hv

lemma wavHeader_length (b : AudioBufferM) : (wavHeader b).length = 44 := by
  simp [wavHeader, riffChunkId, waveFormatId, fmtChunkId, dataChunkId,
    uint32leBytes, uint16leBytes]

lemma audioBufferToWav_take (b : AudioBufferM) :
    (audioBufferToWav b).take 44 = wavHeader b := by
  unfold audioBufferToWav
  exact List.take_left' (wavHeader_length b)

lemma audioBufferToWav_drop (b : AudioBufferM) :
    (audioBufferToWav b).drop 44 =
      (if b.numberOfChannels = 1 then floatTo16BitPCM (getChannelData b 0)
       else interleavedData b) := by
  unfold audioBufferToWav
  exact List.drop_left' (wavHeader_length b)

lemma getChannelData_zero_length (b : AudioBufferM) (h : wellFormed b)
    (hpos : 0 < b.numberOfChannels) : (getChannelData b 0).length = b.length := by
  apply h.2
  unfold getChannelData
  rw [List.getD_eq_getElem _ _ (by rw [h.1]; exact hpos)]
  exact List.getElem_mem _

lemma interleavedData_mono (b : AudioBufferM) (h1 : b.numberOfChannels = 1)
    (hlen : (getChannelData b 0).length = b.length) :
    interleavedData b = floatTo16BitPCM (getChannelData b 0) := by
  unfold interleavedData floatTo16BitPCM
  rw [h1, flatMap_eq_range_getD (fun s => int16ToBytes (floatTo16BitPCMSample s)) 0
    (getChannelData b 0), hlen]
  apply flatMap_congr_mem
  intro i _
  simp [List.range_succ]

lemma decodedBuffer_numberOfChannels (data : List Nat) (sr nc : Nat) :
    (decodedBuffer data sr nc).numberOfChannels = nc := rfl

lemma decodedBuffer_length (data : List Nat) (sr nc : Nat) :
    (decodedBuffer data sr nc).length = (bytesToInt16List data).length / nc := rfl

lemma decodedBuffer_sample (data : List Nat) (sr nc c i : Nat) (hc : c < nc)
    (hi : i < (bytesToInt16List data).length / nc) :
    ((decodedBuffer data sr nc).channelData.getD c []).getD i 0 =
      (((bytesToInt16List data).getD (i * nc + c) 0 : Int) : ℚ) / 32768 := by
  show ((((List.range nc).map _).getD c []).getD i 0) = _
  rw [getD_map_range nc _ c hc, getD_map_range _ _ i hi]

lemma decodedBuffer_wellFormed (data : List Nat) (sr nc : Nat) :
    wellFormed (decodedBuffer data sr nc) := by
  constructor
  · simp [decodedBuffer]
  · intro ch hch
    simp only [decodedBuffer, List.mem_map, List.mem_range] at hch
    obtain ⟨c, _, rfl⟩ := hch
    simp [decodedBuffer]

lemma getChannelData_decodedBuffer (data : List Nat) (sr nc c : Nat) (hc : c < nc) :
    getChannelData (decodedBuffer data sr nc) c =
      (List.range ((bytesToInt16List data).length / nc)).map (fun i =>
        (((bytesToInt16List data).getD (i * nc + c) 0 : Int) : ℚ) / 32768) := by
  unfold getChannelData
  show (((List.range nc).map _).getD c []) = _
  rw [getD_map_range nc _ c hc]

lemma decodedBuffer_payload (data : List Nat) (sr nc : Nat) (hnc : 0 < nc) :
    (audioBufferToWav (decodedBuffer data sr nc)).drop 44 =
      ((List.range ((bytesToInt16List data).length / nc * nc)).map (fun k =>
          floatTo16BitPCMSample ((((bytesToInt16List data).getD k 0 : Int) : ℚ) / 32768))).flatMap
        int16ToBytes := by
  rw [audioBufferToWav_drop]
  by_cases hone : nc = 1
  · subst hone
    rw [if_pos (decodedBuffer_numberOfChannels data sr 1),
      getChannelData_decodedBuffer data sr 1 0 (by norm_num)]
    unfold floatTo16BitPCM
    rw [List.flatMap_map, List.flatMap_map]
    simp only [Nat.mul_one, Nat.add_zero]
  · rw [if_neg (by rw [decodedBuffer_numberOfChannels]; exact hone)]
    unfold interleavedData
    rw [decodedBuffer_numberOfChannels, decodedBuffer_length]
    have step1 : (List.range ((bytesToInt16List data).length / nc)).flatMap (fun i =>
        (List.range nc).flatMap (fun j =>
          int16ToBytes (floatTo16BitPCMSample
            ((getChannelData (decodedBuffer data sr nc) j).getD i 0)))) =
      (List.range ((bytesToInt16List data).length / nc)).flatMap (fun i =>
        (List.range nc).flatMap (fun j =>
          int16ToBytes (floatTo16BitPCMSample
            ((((bytesToInt16List data).getD (i * nc + j) 0 : Int) : ℚ) / 32768)))) := by
      apply flatMap_congr_mem
      intro i hi
      apply flatMap_congr_mem
      intro j hj
      rw [getChannelData_decodedBuffer data sr nc j (List.mem_range.mp hj),
        getD_map_range _ _ i (List.mem_range.mp hi)]
    rw [step1, List.flatMap_map]
    exact range_flatMap_mul ((bytesToInt16List data).length / nc) nc
      (fun k => int16ToBytes (floatTo16BitPCMSample
        ((((bytesToInt16List data).getD k 0 : Int) : ℚ) / 32768)))

lemma stepEvent_lastVolume_pos (s : PlayerState) (e : Event) (h : 0 < s.lastVolume) :
    0 < (stepEvent s e).lastVolume := by
  cases e <;> simp only [stepEvent, playStep]
  all_goals first
  | exact h
  | (split_ifs <;> simp_all)

lemma foldl_lastVolume_pos (es : List Event) (s : PlayerState) (h : 0 < s.lastVolume) :
    0 < (es.foldl stepEvent s).lastVolume := by
  induction es generalizing s with
  | nil => exact h
  | cons e es ih => exact ih _ (stepEvent_lastVolume_pos s e h)

/-- C2 (code bug evidence): the specification requires that a playback-rate
change in the middle of a segment not disturb the offset already accrued, so
the trace play at clock 0 from offset 0 with rate 1, then setPlaybackRate 2
at clock 1, then pause at clock 2 should leave startOffsetSeconds at
0 + 1 * 1 + 1 * 2 = 3; the code's pause handler instead multiplies the whole
wall-clock span by the rate current at pause time and stores
0 + (2 - 0) * 2 = 4. -/
theorem pause_after_rate_change_rescales_whole_segment :
    (runEvents 10 [Event.play 0, Event.speedChange 2 1, Event.pause 2]).startOffset = 4 ∧
      ((4 : ℚ) ≠ 0 + 1 * 1 + 1 * 2) := by
  constructor
  · norm_num [runEvents, stepEvent, playStep, initState, List.foldl]
  · norm_num

/-- C6: from any state whose offset lies inside the buffer (so the segment
play starts really begins at that offset), playing at clock now and pausing
at clock now + dt advances startOffsetSeconds by exactly dt times the
playback rate, and the source had been started at the pre-play offset. -/
theorem pause_after_play_advances_by_rate (s : PlayerState) (now dt : ℚ)
    (h : s.startOffset < s.duration) :
    (stepEvent (stepEvent s (Event.play now)) (Event.pause (now + dt))).startOffset =
        s.startOffset + dt * s.playbackRate ∧
      (stepEvent s (Event.play now)).sourceStartOffset = s.startOffset := by
  simp only [stepEvent, playStep]
  rw [if_neg (not_le.mpr h)]
  refine ⟨?_, rfl⟩
  simp only [if_true]
  show s.startOffset + (now + dt - now) * s.playbackRate = s.startOffset + dt * s.playbackRate
  ring

/-- C6 witness: a concrete state with offset 3, duration 10 and rate 3/2,
played at clock 5 and paused two seconds later, resumes from 3 + 2 * (3/2). -/
theorem pause_after_play_advances_by_rate_witness :
    (3 : ℚ) < 10 ∧
      (stepEvent (stepEvent (PlayerState.mk false false 0 10 3 0 0 1 (3 / 2) 1 1) (Event.play 5))
          (Event.pause (5 + 2))).startOffset = 3 + 2 * (3 / 2) :=
  ⟨by norm_num,
   (pause_after_play_advances_by_rate (PlayerState.mk false false 0 10 3 0 0 1 (3 / 2) 1 1) 5 2
      (by norm_num)).1⟩

/-- C7: play starts the fresh output source at offset 0 when the stored
offset is at or past the buffer duration, and exactly at the stored offset
when it is below the duration. -/
theorem play_clamps_offset (s : PlayerState) (now : ℚ) :
    (s.duration ≤ s.startOffset → (stepEvent s (Event.play now)).sourceStartOffset = 0) ∧
      (s.startOffset < s.duration →
        (stepEvent s (Event.play now)).sourceStartOffset = s.startOffset) := by
  constructor
  · intro h
    simp only [stepEvent, playStep]
    rw [if_pos h]
  · intro h
    simp only [stepEvent, playStep]
    rw [if_neg (not_le.mpr h)]

/-- C7 witness: with duration 10, playing from stored offset 12 starts the
source at 0, and playing from stored offset 3 starts it at 3. -/
theorem play_clamps_offset_witness :
    (10 : ℚ) ≤ 12 ∧
      (stepEvent (PlayerState.mk false false 0 10 12 0 0 1 1 1 1)
        (Event.play 0)).sourceStartOffset = 0 ∧
      (3 : ℚ) < 10 ∧
      (stepEvent (PlayerState.mk false false 0 10 3 0 0 1 1 1 1)
        (Event.play 0)).sourceStartOffset = 3 :=
  ⟨by norm_num,
   (play_clamps_offset (PlayerState.mk false false 0 10 12 0 0 1 1 1 1) 0).1 (by norm_num),
   by norm_num,
   (play_clamps_offset (PlayerState.mk false false 0 10 3 0 0 1 1 1 1) 0).2 (by norm_num)⟩

/-- C8 (counterexample): seeking to 2 on a buffer of duration 1 and playing
to natural completion recomputes the final offset as 2 + (1 - 0) * 1 = 3,
which is not within 0.01 of the duration 1, yet the handler resets the
stored offset to 0 (and snaps the displayed time to the duration) instead of
retaining the computed offset 3: the reset threshold is one-sided, not a
within-epsilon band. -/
theorem ended_resets_even_far_beyond_duration :
    (runEvents 1 [Event.seek 2 0, Event.play 0, Event.ended 1]).startOffset = 0 ∧
      (runEvents 1 [Event.seek 2 0, Event.play 0, Event.ended 1]).currentTime = 1 ∧
      ¬ |(2 + (1 - 0) * 1 : ℚ) - 1| ≤ 1 / 100 ∧ (0 : ℚ) ≠ 2 + (1 - 0) * 1 := by
  refine ⟨?_, ?_, by norm_num, by norm_num⟩ <;>
    norm_num [runEvents, stepEvent, playStep, initState, List.foldl]

/-- C8 (amended): when the source signals completion, the transport
recomputes the final offset from the segment start time and the playback
rate captured by the onended closure when play() attached it (not a rate set
later in mid-segment), stops playing, and resets the offset to 0 while
snapping the displayed position to the full duration exactly when the
recomputed offset is at or beyond duration - 0.01 (a one-sided threshold
that also fires arbitrarily far past the duration); below that threshold it
retains the computed offset and leaves the displayed position unchanged. -/
theorem ended_threshold_one_sided (s : PlayerState) (now : ℚ)
    (hsrc : s.hasMainSource = true) :
    ((stepEvent s (Event.ended now)).isPlaying = false) ∧
      (s.duration - 1 / 100 ≤ s.startOffset + (now - s.playbackStartTime) * s.sourceRate →
        (stepEvent s (Event.ended now)).startOffset = 0 ∧
          (stepEvent s (Event.ended now)).currentTime = s.duration) ∧
      (s.startOffset + (now - s.playbackStartTime) * s.sourceRate < s.duration - 1 / 100 →
        (stepEvent s (Event.ended now)).startOffset =
            s.startOffset + (now - s.playbackStartTime) * s.sourceRate ∧
          (stepEvent s (Event.ended now)).currentTime = s.currentTime) := by
  simp only [stepEvent]
  rw [if_pos hsrc]
  refine ⟨rfl, fun h => ?_, fun h => ?_⟩
  · constructor
    · show (if s.duration - 1 / 100 ≤ _ then (0 : ℚ) else _) = 0
      rw [if_pos h]
    · show (if s.duration - 1 / 100 ≤ _ then s.duration else _) = s.duration
      rw [if_pos h]
  · constructor
    · show (if s.duration - 1 / 100 ≤ _ then (0 : ℚ) else _) = _
      rw [if_neg (not_le.mpr h)]
    · show (if s.duration - 1 / 100 ≤ _ then s.duration else _) = s.currentTime
      rw [if_neg (not_le.mpr h)]

/-- C8 witness: on a live source with duration 1, segment start 0, offset 0
and rate 1, completion at clock 1 recomputes offset 1 (at the threshold) and
resets to 0 snapping the display to 1, while completion at clock 1/2
recomputes offset 1/2 (below the threshold) and retains it. -/
theorem ended_threshold_one_sided_witness :
    ((stepEvent (PlayerState.mk true true 0 1 0 0 0 1 1 1 1) (Event.ended 1)).startOffset = 0 ∧
        (stepEvent (PlayerState.mk true true 0 1 0 0 0 1 1 1 1) (Event.ended 1)).currentTime = 1) ∧
      (stepEvent (PlayerState.mk true true 0 1 0 0 0 1 1 1 1)
          (Event.ended (1 / 2))).startOffset = 0 + (1 / 2 - 0) * 1 :=
  ⟨(ended_threshold_one_sided (PlayerState.mk true true 0 1 0 0 0 1 1 1 1) 1 rfl).2.1
      (by norm_num),
   ((ended_threshold_one_sided (PlayerState.mk true true 0 1 0 0 0 1 1 1 1) (1 / 2) rfl).2.2
      (by norm_num)).1⟩

/-- C10: along every event trace from the freshly generated state the stored
pre-mute volume stays strictly positive, and therefore unmuting from a muted
state always restores a strictly positive volume. -/
theorem lastVolume_always_positive (d : ℚ) (es : List Event) :
    0 < (runEvents d es).lastVolume ∧
      ((runEvents d es).volume = 0 →
        0 < (stepEvent (runEvents d es) Event.toggleMute).volume) := by
  constructor
  · exact foldl_lastVolume_pos es (initState d) (by norm_num [initState])
  · intro h0
    simp only [stepEvent]
    rw [if_neg (by rw [h0]; exact lt_irrefl 0)]
    show (0 : ℚ) < if 0 < (runEvents d es).lastVolume then (runEvents d es).lastVolume else 1
    split_ifs with hl
    · exact hl
    · norm_num

/-- C10 witness: muting from the initial state and toggling again restores a
positive volume, and the stored pre-mute volume was positive. -/
theorem lastVolume_always_positive_witness :
    0 < (runEvents 10 [Event.toggleMute]).lastVolume ∧
      0 < (stepEvent (runEvents 10 [Event.toggleMute]) Event.toggleMute).volume :=
  ⟨(lastVolume_always_positive 10 [Event.toggleMute]).1,
   (lastVolume_always_positive 10 [Event.toggleMute]).2
      (by norm_num [runEvents, stepEvent, initState, List.foldl])⟩

lemma length_flatMap_const {α : Type _} (l : List α) (g : α → List Nat) (k : Nat)
    (h : ∀ a ∈ l, (g a).length = k) : (l.flatMap g).length = l.length * k := by
  induction l with
  | nil => simp
  | cons x xs ih =>
    rw [List.flatMap_cons, List.length_append, h x (by simp),
      ih (fun a ha => h a (by simp [ha])), List.length_cons, Nat.succ_mul]
    omega

lemma int16ToBytes_length (v : Int) : (int16ToBytes v).length = 2 := rfl

lemma interleavedData_length (b : AudioBufferM) :
    (interleavedData b).length = b.length * b.numberOfChannels * 2 := by
  unfold interleavedData
  have hinner : ∀ i ∈ List.range b.length,
      ((List.range b.numberOfChannels).flatMap (fun j =>
        int16ToBytes (floatTo16BitPCMSample ((getChannelData b j).getD i 0)))).length =
        b.numberOfChannels * 2 := by
    intro i _
    rw [length_flatMap_const _ _ 2 (fun j _ => int16ToBytes_length _), List.length_range]
  rw [length_flatMap_const _ _ _ hinner, List.length_range, Nat.mul_assoc]

/-- C9: for every well-formed buffer the mp3-labelled encoder emits exactly
the byte sequence of the wav encoder: the same RIFF/WAVE container
regardless of the media-type label. -/
theorem audioBufferToMp3_eq_audioBufferToWav (b : AudioBufferM) (h : wellFormed b) :
    audioBufferToMp3 b = audioBufferToWav b := by
  unfold audioBufferToMp3 audioBufferToWav
  congr 1
  by_cases h1 : b.numberOfChannels = 1
  · rw [if_pos h1]
    exact interleavedData_mono b h1 (getChannelData_zero_length b h (by omega))
  · rw [if_neg h1]

/-- C9 witness: a concrete mono two-frame buffer on which the two encoders
agree byte for byte. -/
theorem audioBufferToMp3_eq_audioBufferToWav_witness :
    wellFormed (AudioBufferM.mk 1 24000 2 [[0, 1 / 2]]) ∧
      audioBufferToMp3 (AudioBufferM.mk 1 24000 2 [[0, 1 / 2]]) =
        audioBufferToWav (AudioBufferM.mk 1 24000 2 [[0, 1 / 2]]) :=
  ⟨by decide, audioBufferToMp3_eq_audioBufferToWav (AudioBufferM.mk 1 24000 2 [[0, 1 / 2]])
      (by decide)⟩

/-- C4: on every well-formed buffer the wav encoder's output is exactly
44 + frameCount * channelCount * 2 bytes; its first 44 bytes are the
canonical header (RIFF, total size 36 + data length, WAVE, fmt sub-chunk of
size 16 with PCM tag 1, channel count, sample rate, byte rate
sampleRate * channelCount * 2, block align channelCount * 2, 16 bits per
sample, then data with the data length); and the remaining bytes are, frame
by frame and channel by channel, the clamped, scaled (32768 for negative
values, 32767 for non-negative ones), truncated samples in little-endian
16-bit form. -/
theorem wav_output_layout (b : AudioBufferM) (h : wellFormed b) :
    (audioBufferToWav b).length = 44 + b.length * b.numberOfChannels * 2 ∧
      (audioBufferToWav b).take 44 =
        riffChunkId ++ uint32leBytes (36 + b.length * b.numberOfChannels * 2) ++ waveFormatId ++
        fmtChunkId ++ uint32leBytes 16 ++ uint16leBytes 1 ++ uint16leBytes b.numberOfChannels ++
        uint32leBytes b.sampleRate ++ uint32leBytes (b.sampleRate * b.numberOfChannels * 2) ++
        uint16leBytes (b.numberOfChannels * 2) ++ uint16leBytes 16 ++
        dataChunkId ++ uint32leBytes (b.length * b.numberOfChannels * 2) ∧
      (audioBufferToWav b).drop 44 =
        (List.range b.length).flatMap (fun i =>
          (List.range b.numberOfChannels).flatMap (fun j =>
            int16ToBytes (floatTo16BitPCMSample ((getChannelData b j).getD i 0)))) := by
  have hpayload : (audioBufferToWav b).drop 44 = interleavedData b := by
    rw [audioBufferToWav_drop]
    split_ifs with h1
    · exact (interleavedData_mono b h1 (getChannelData_zero_length b h (by omega))).symm
    · rfl
  refine ⟨?_, ?_, ?_⟩
  · have hsplit : audioBufferToWav b = (audioBufferToWav b).take 44 ++ (audioBufferToWav b).drop 44 :=
      (List.take_append_drop 44 (audioBufferToWav b)).symm
    rw [hsplit, List.length_append, audioBufferToWav_take, wavHeader_length, hpayload,
      interleavedData_length]
  · rw [audioBufferToWav_take]
    rfl
  · rw [hpayload]
    rfl

/-- C4 witness: the encoder output for a concrete mono two-frame buffer has
exactly 44 + 2 * 1 * 2 bytes. -/
theorem wav_output_layout_witness :
    wellFormed (AudioBufferM.mk 1 24000 2 [[0, 1 / 2]]) ∧
      (audioBufferToWav (AudioBufferM.mk 1 24000 2 [[0, 1 / 2]])).length = 44 + 2 * 1 * 2 :=
  ⟨by decide, by
    have h := (wav_output_layout (AudioBufferM.mk 1 24000 2 [[0, 1 / 2]]) (by decide)).1
    simpa using h⟩

/-- C5: on every even-length input the decoder produces a buffer whose
sample for channel c at frame i is the little-endian signed 16-bit value at
flat index i * channelCount + c divided by 32768. -/
theorem decode_normalizes (data : List Nat) (sr nc c i : Nat)
    (heven : data.length % 2 = 0) (hc : c < nc)
    (hi : i < (bytesToInt16List data).length / nc) :
    ∃ b, decodeAudioData data sr nc = some b ∧
      (b.channelData.getD c []).getD i 0 =
        (((bytesToInt16List data).getD (i * nc + c) 0 : Int) : ℚ) / 32768 := by
  refine ⟨decodedBuffer data sr nc, ?_, decodedBuffer_sample data sr nc c i hc hi⟩
  unfold decodeAudioData
  rw [if_pos heven, if_neg (Nat.not_eq_zero_of_lt hi)]

/-- C5 witness: the known vector 0x00 0x00 0xFF 0x7F at one channel decodes
to sample 0 at frame 0 and sample 32767 / 32768 at frame 1, the positive
peak staying strictly below 1. -/
theorem decode_normalizes_witness :
    (∃ b, decodeAudioData [0, 0, 255, 127] 24000 1 = some b ∧
        (b.channelData.getD 0 []).getD 0 0 = 0) ∧
      (∃ b, decodeAudioData [0, 0, 255, 127] 24000 1 = some b ∧
        (b.channelData.getD 0 []).getD 1 0 = 32767 / 32768) := by
  constructor
  · obtain ⟨b, hb, hs⟩ :=
      decode_normalizes [0, 0, 255, 127] 24000 1 0 0 (by decide) (by decide) (by decide)
    refine ⟨b, hb, ?_⟩
    rw [hs]
    norm_num [bytesToInt16List, toInt16]
  · obtain ⟨b, hb, hs⟩ :=
      decode_normalizes [0, 0, 255, 127] 24000 1 0 1 (by decide) (by decide) (by decide)
    refine ⟨b, hb, ?_⟩
    rw [hs]
    norm_num [bytesToInt16List, toInt16]

/-- C3 (counterexample): the byte sequence of length 6 is not a multiple of
2 * channelCount for channelCount 2, yet the decoder does not fail: it
returns a buffer (with the partial trailing frame silently dropped, leaving
one frame). -/
theorem decode_partial_frame_succeeds :
    ¬ (2 * 2 ∣ 6) ∧ ([0, 0, 0, 0, 0, 0] : List Nat).length = 6 ∧
      decodeAudioData [0, 0, 0, 0, 0, 0] 24000 2 ≠ none ∧
      (decodedBuffer [0, 0, 0, 0, 0, 0] 24000 2).length = 1 := by
  refine ⟨by decide, by decide, ?_, by decide⟩
  unfold decodeAudioData
  rw [if_pos (by decide), if_neg (by decide)]
  exact Option.some_ne_none _

/-- C3 (amended): the decoder fails exactly when the byte length is odd (the
typed-array view construction throws) or when the truncated frame count
sampleCount / channelCount is zero (createBuffer throws on a zero length, as
for an even input shorter than one full frame); on every even byte length
holding at least one full frame — including lengths that are not a multiple
of 2 * channelCount — it succeeds and returns a buffer with
sampleCount / channelCount frames, silently dropping a partial trailing
frame. -/
theorem decode_failure_characterization (data : List Nat) (sr nc : Nat) :
    (decodeAudioData data sr nc = none ↔
      data.length % 2 = 1 ∨ (bytesToInt16List data).length / nc = 0) ∧
      (data.length % 2 = 0 → 0 < (bytesToInt16List data).length / nc →
        decodeAudioData data sr nc = some (decodedBuffer data sr nc) ∧
          (decodedBuffer data sr nc).length = (bytesToInt16List data).length / nc) := by
  constructor
  · unfold decodeAudioData
    by_cases he : data.length % 2 = 0
    · rw [if_pos he]
      by_cases hz : (bytesToInt16List data).length / nc = 0
      · rw [if_pos hz]
        exact ⟨fun _ => Or.inr hz, fun _ => rfl⟩
      · rw [if_neg hz]
        refine ⟨fun h => absurd h (Option.some_ne_none _), fun h => ?_⟩
        rcases h with h | h
        · omega
        · exact absurd h hz
    · rw [if_neg he]
      exact ⟨fun _ => Or.inl (by omega), fun _ => rfl⟩
  · intro he hz
    unfold decodeAudioData
    rw [if_pos he, if_neg hz.ne']
    exact ⟨rfl, rfl⟩

/-- C3 amended witness: a one-byte input is rejected (odd length), a
two-byte input at two channels is rejected (zero whole frames), and a
two-byte input at one channel decodes to a one-frame buffer. -/
theorem decode_failure_characterization_witness :
    decodeAudioData [0] 24000 1 = none ∧
      decodeAudioData [0, 0] 24000 2 = none ∧
      decodeAudioData [0, 0] 24000 1 = some (decodedBuffer [0, 0] 24000 1) :=
  ⟨(decode_failure_characterization [0] 24000 1).1.mpr (Or.inl (by decide)),
   (decode_failure_characterization [0, 0] 24000 2).1.mpr (Or.inr (by decide)),
   ((decode_failure_characterization [0, 0] 24000 1).2 (by decide) (by decide)).1⟩

/-- C1 (counterexample): the empty byte sequence has length a multiple of
2 * channelCount, yet decoding it fails (createBuffer throws on the zero
frame count) instead of producing a buffer that could be re-encoded, so the
round-trip property as stated does not hold at the empty input. -/
theorem decode_empty_input_fails :
    (2 * 1 ∣ ([] : List Nat).length) ∧ decodeAudioData [] 24000 1 = none :=
  ⟨by decide, by decide⟩

/-- C1 (amended): decoding a non-empty byte sequence whose length is a
multiple of 2 * channelCount, encoding the resulting buffer into the
container, and decoding the container's payload (the bytes after the 44-byte
header) again yields a buffer of the same shape whose every sample differs
from the corresponding original sample by at most one least significant bit
of int16 quantization, 1 / 32768.  Non-emptiness is required because the
decoder fails on a zero frame count. -/
theorem decode_encode_decode_roundtrip (data : List Nat) (sr nc : Nat)
    (hnc : 0 < nc) (hpos : 0 < data.length) (hbytes : ∀ x ∈ data, x < 256)
    (hlen : 2 * nc ∣ data.length) :
    ∃ b b', decodeAudioData data sr nc = some b ∧
      decodeAudioData ((audioBufferToWav b).drop 44) sr nc = some b' ∧
      b'.numberOfChannels = b.numberOfChannels ∧ b'.length = b.length ∧
      ∀ c i, c < nc → i < b.length →
        |(b'.channelData.getD c []).getD i 0 - (b.channelData.getD c []).getD i 0| ≤
          1 / 32768 := by
  obtain ⟨m, hm⟩ := hlen
  have hm' : data.length = 2 * (nc * m) := by rw [hm, Nat.mul_assoc]
  have heven : data.length % 2 = 0 := by omega
  have hm0 : 0 < m := by
    rcases Nat.eq_zero_or_pos m with h0 | h0
    · subst h0
      rw [Nat.mul_zero, Nat.mul_zero] at hm'
      omega
    · exact h0
  have hN : (bytesToInt16List data).length = nc * m := by
    rw [bytesToInt16List_length, hm']
    omega
  have hf : (bytesToInt16List data).length / nc = m := by
    rw [hN, Nat.mul_div_cancel_left m hnc]
  have hfN : (bytesToInt16List data).length / nc * nc = (bytesToInt16List data).length := by
    rw [hf, hN, Nat.mul_comm]
  have hbounds : ∀ v ∈ bytesToInt16List data, -32768 ≤ v ∧ v < 32768 :=
    bytesToInt16List_mem_bounds data hbytes
  have hgetD : ∀ k, k < (bytesToInt16List data).length →
      -32768 ≤ (bytesToInt16List data).getD k 0 ∧ (bytesToInt16List data).getD k 0 < 32768 := by
    intro k hk
    rw [List.getD_eq_getElem _ _ hk]
    exact hbounds _ (List.getElem_mem hk)
  have hpay := decodedBuffer_payload data sr nc hnc
  have hvals' : bytesToInt16List ((audioBufferToWav (decodedBuffer data sr nc)).drop 44) =
      (List.range ((bytesToInt16List data).length / nc * nc)).map (fun k =>
        floatTo16BitPCMSample ((((bytesToInt16List data).getD k 0 : Int) : ℚ) / 32768)) := by
    rw [hpay]
    apply bytesToInt16List_flatMap
    intro v hv
    rw [List.mem_map] at hv
    obtain ⟨k, hk, rfl⟩ := hv
    have hkN : k < (bytesToInt16List data).length := by
      rw [← hfN]
      exact List.mem_range.mp hk
    exact floatTo16BitPCMSample_int16_bounds _ (hgetD k hkN).1 (hgetD k hkN).2
  have hpaylen : ((audioBufferToWav (decodedBuffer data sr nc)).drop 44).length % 2 = 0 := by
    rw [hpay, length_flatMap_int16ToBytes]
    omega
  refine ⟨decodedBuffer data sr nc,
    decodedBuffer ((audioBufferToWav (decodedBuffer data sr nc)).drop 44) sr nc,
    ?_, ?_, rfl, ?_, ?_⟩
  · unfold decodeAudioData
    rw [if_pos heven, if_neg (by rw [hf]; exact hm0.ne')]
  · unfold decodeAudioData
    rw [if_pos hpaylen, if_neg (by
      rw [hvals', List.length_map, List.length_range, Nat.mul_div_cancel _ hnc, hf]
      exact hm0.ne')]
  · rw [decodedBuffer_length, decodedBuffer_length, hvals', List.length_map, List.length_range,
      Nat.mul_div_cancel _ hnc]
  · intro c i hc hi
    have hi' : i < (bytesToInt16List data).length / nc := hi
    have hidx : i * nc + c < (bytesToInt16List data).length / nc * nc := by
      have h1 : i * nc + c < (i + 1) * nc := by
        rw [Nat.succ_mul]
        omega
      exact lt_of_lt_of_le h1 (Nat.mul_le_mul_right nc hi')
    have hi'' :
        i < (bytesToInt16List ((audioBufferToWav (decodedBuffer data sr nc)).drop 44)).length /
          nc := by
      rw [hvals', List.length_map, List.length_range, Nat.mul_div_cancel _ hnc]
      exact hi'
    rw [decodedBuffer_sample _ sr nc c i hc hi'', decodedBuffer_sample data sr nc c i hc hi',
      hvals', getD_map_range _ _ _ hidx]
    have hw := hgetD (i * nc + c) (by rw [← hfN]; exact hidx)
    rw [floatTo16BitPCMSample_int16 _ hw.1 hw.2]
    have h32 : (0 : ℚ) < 32768 := by norm_num
    set w := (bytesToInt16List data).getD (i * nc + c) 0 with hwdef
    have key : (((if 0 < w then w - 1 else w : Int) : ℚ)) / 32768 - (w : ℚ) / 32768 =
        (((if 0 < w then w - 1 else w : Int) : ℚ) - (w : ℚ)) / 32768 := by ring
    rw [key, abs_div, abs_of_pos h32]
    have habs : |(((if 0 < w then w - 1 else w : Int) : ℚ)) - (w : ℚ)| ≤ 1 := by
      split_ifs
      · push_cast
        rw [show ((w : ℚ) - 1 - (w : ℚ)) = -1 by ring]
        norm_num
      · simp
    linarith [habs]

/-- C1 witness: the known two-sample mono vector round-trips with every
sample within 1 / 32768 of the original. -/
theorem decode_encode_decode_roundtrip_witness :
    ∃ b b', decodeAudioData [0, 0, 255, 127] 24000 1 = some b ∧
      decodeAudioData ((audioBufferToWav b).drop 44) 24000 1 = some b' ∧
      b'.numberOfChannels = b.numberOfChannels ∧ b'.length = b.length ∧
      ∀ c i, c < 1 → i < b.length →
        |(b'.channelData.getD c []).getD i 0 - (b.channelData.getD c []).getD i 0| ≤
          1 / 32768 :=
  decode_encode_decode_roundtrip [0, 0, 255, 127] 24000 1 (by decide) (by decide) (by decide)
    (by decide)

end Tts
